import Mathlib

/-!
Verification development for the batching pipeline of
`src/seamless_communication/cli/m4t/finetune/dataloader.py`.

The pipeline turns a list of multimodal samples (audio waveform + text +
optional unit sequence) into padded tensor batches.  We embed the pipeline
shallowly: tensors become (nested) Lean lists, floating-point entries become
an explicit value type carrying finite/NaN/infinite information, machine
integers become `Nat`/`Int`, fallible code (Python `assert`, `IndexError`)
returns `Option`.  External collaborators (torchaudio loading, the fairseq2
fbank converter, the text/unit token encoders) are modelled as data already
attached to each sample record: the dataloader only ever inspects their
outputs, never their internals.
-/

namespace M4TFinetune

/-- Floating-point value as observed by the dataloader: a finite rational,
a NaN, or an infinity.  This carries exactly the distinctions the code
inspects (`Tensor.isnan`) while keeping finite values exact. -/
inductive FVal : Type
  | fin (q : ℚ)
  | nan : FVal
  | posInf : FVal
  | negInf : FVal
deriving DecidableEq

/-- Mirrors `torch.isnan`: true exactly on NaN; infinities are not NaN. -/
def FVal.isNaN : FVal → Bool
  | .nan => true
  | _ => false

/-- Mirrors `torch.isfinite`: true exactly on finite values; NaN and the
infinities are non-finite. -/
def FVal.isFinite : FVal → Bool
  | .fin _ => true
  | _ => false

/-- One manifest sample as consumed by `_prepare_batch` (a `LangPairSample`
in the source).  The fields record what the external collaborators return
for this sample:
* `wav_shape`, `sample_rate` — shape and rate of the waveform returned by
  `torchaudio.load(sample.source.audio_local_path)`;
* `fbank` — the matrix (list of time frames, each a list of mel-bin values)
  produced by `WaveformToFbankConverter` for this sample's waveform;
* `text_encoded` — the token ids returned by the cached per-language text
  encoder on `sample.target.text` (before the trailing eos is appended by
  `_get_tokenized_target_text`);
* `units_encoded` — `none` iff `sample.target.units is None`, otherwise the
  token ids returned by the cached per-language unit encoder (squeezed,
  before the trailing eos appended by `_get_tokenized_units`). -/
structure LangPairSample where
  wav_shape : List ℕ
  sample_rate : ℕ
  fbank : List (List FVal)
  text_encoded : List ℤ
  units_encoded : Option (List ℤ)
deriving DecidableEq

/-- Pad/eos indices exposed by the two tokenizers
(`text_tokenizer.vocab_info` and `unit_tokenizer.vocab_info`). -/
structure TokInfo where
  text_eos : ℤ
  text_pad : ℤ
  unit_eos : ℤ
  unit_pad : ℤ
deriving DecidableEq

/-- The `BatchingConfig` dataclass.  `max_audio_length_sec` is a Python
float, modelled as an exact rational; `float_dtype` (a fp16/fp32 cast that
does not change which entries are NaN) is out of scope. -/
structure BatchingConfig where
  fbank_feats_pad_idx : ℤ := 0
  batch_size : ℕ := 2
  max_audio_length_sec : ℚ := 15
  rank : ℕ := 0
  world_size : ℕ := 1
  num_workers : ℕ := 2
deriving DecidableEq

/-- The `SeqsBatch` dataclass: five optional tensors.  Source tokens are a
batch of fbank matrices; the remaining tensors are integer token matrices
and length vectors. -/
structure SeqsBatch where
  src_tokens : Option (List (List (List FVal)))
  src_lengths : Option (List ℕ)
  target_tokens : Option (List (List ℤ))
  prev_output_tokens : Option (List (List ℤ))
  target_lengths : Option (List ℕ)
deriving DecidableEq

/-- The `MultimodalSeqsBatch` dataclass: one sub-batch for speech-to-text
and one for text-to-units. -/
structure MultimodalSeqsBatch where
  speech_to_text : SeqsBatch
  text_to_units : SeqsBatch
deriving DecidableEq

/-- `UnitYDataLoader.SAMPLE_RATE`. -/
def SAMPLE_RATE : ℕ := 16000

/-- Number of mel bins in `_fbank_extract_params` (`num_mel_bins = 80`). -/
def num_mel_bins : ℕ := 80

/-- Maximum of a list of naturals, as Python's `max` over a non-empty
iterable (folded with initial value 0; the pipeline only applies it to
non-empty lists, where Python's `max` agrees with this fold). -/
def listMax (l : List ℕ) : ℕ := l.foldl Nat.max 0

/-- `_is_long_src_audio`: reload the waveform, compute
`length_s = max(wav.shape) / sample_rate` (exact division, written with
`mkRat`), and test `length_s > max_audio_length_sec` (strict). -/
def is_long_src_audio (cfg : BatchingConfig) (sample : LangPairSample) : Bool :=
  let length_s : ℚ := mkRat (listMax sample.wav_shape) sample.sample_rate
  decide (cfg.max_audio_length_sec < length_s)

/-- `_get_source_fbank`, at the granularity `_prepare_batch` needs: the two
asserts (`sample_rate == 16000` and `len(wav.shape) in (1, 2)`) abort the
call (`none`); otherwise the converter's fbank matrix for this sample is
returned.  The channel-layout normalization between the asserts and the
converter call is modelled with full data in `normalize_wav` below. -/
def get_source_fbank (sample : LangPairSample) : Option (List (List FVal)) :=
  if sample.sample_rate = SAMPLE_RATE ∧
      (sample.wav_shape.length = 1 ∨ sample.wav_shape.length = 2) then
    some sample.fbank
  else none

/-- A waveform as returned by `torchaudio.load`, with its data: 1-D, 2-D
(as a list of rows, so `shape[0]` is the outer length), or a tensor of any
other dimensionality `n ∉ {1, 2}` (whose entries the code never reaches,
so only `n` is recorded). -/
inductive RawWav : Type
  | d1 (xs : List ℚ)
  | d2 (xss : List (List ℚ))
  | other (ndim : ℕ)
deriving DecidableEq

/-- Channel-layout normalization inside `_get_source_fbank` (lines 145-149):
`assert len(wav.shape) in (1, 2)` aborts on any other dimensionality; a 1-D
waveform gets `unsqueeze(-1)` (a trailing channel dimension of size 1); a
2-D waveform with `shape[0] <= 2` is transposed; any other 2-D waveform is
passed through unchanged. -/
def normalize_wav : RawWav → Option (List (List ℚ))
  | .d1 xs => some (xs.map fun x => [x])
  | .d2 xss => if xss.length ≤ 2 then some xss.transpose else some xss
  | .other _ => none

/-- `fbank.isnan().any()`: does any entry of the feature matrix hold NaN? -/
def fbank_has_nan (fbank : List (List FVal)) : Bool :=
  fbank.any fun row => row.any FVal.isNaN

/-- `_get_tokenized_target_text`: the cached text encoder's output with the
eos index appended (`torch.concat([tokens, LongTensor([eos_idx])])`). -/
def get_tokenized_target_text (tk : TokInfo) (sample : LangPairSample) : List ℤ :=
  sample.text_encoded ++ [tk.text_eos]

/-- `_get_tokenized_units`: `None` when the sample has no units; otherwise
the cached unit encoder's squeezed output with the eos index appended. -/
def get_tokenized_units (tk : TokInfo) (sample : LangPairSample) : Option (List ℤ) :=
  match sample.units_encoded with
  | none => none
  | some u => some (u ++ [tk.unit_eos])

/-- `_batch_tensors`: compute the maximum leading-dimension length, right-pad
every sequence with the pad slice to that maximum, and stack along a new
leading batch dimension.  `σ` is one slice along the leading dimension: a
token for 1-D token tensors, a time frame (row of mel-bin values) for 2-D
fbank tensors; torch's constant `pad` fills appended slices entirely with
the pad value, so the fbank call site passes a constant pad row. -/
def batch_tensors {σ : Type} (tensors : List (List σ)) (pad_value : σ) : List (List σ) :=
  let padding_size := listMax (tensors.map List.length)
  tensors.map fun tensor =>
    tensor ++ List.replicate (padding_size - tensor.length) pad_value

/-- Lines 205-206 of `_prepare_batch`: drop the samples whose source audio
is long; if that drops everything, fall back to the first original sample
(`samples[0]`, an `IndexError` — modelled `none` — when the collate input
itself is empty). -/
def duration_stage (cfg : BatchingConfig) (samples : List LangPairSample) :
    Option (List LangPairSample) :=
  let filtered_samples := samples.filter fun sample => !is_long_src_audio cfg sample
  if filtered_samples.isEmpty then
    match samples with
    | [] => none
    | first :: _ => some [first]
  else some filtered_samples

/-- Evaluate `g` on every element, aborting on the first failure: the model
of a Python list comprehension over a fallible call (line 207, where an
assert failure inside `_get_source_fbank` aborts the whole collate call). -/
def mapOptionAll {α β : Type} (g : α → Option β) : List α → Option (List β)
  | [] => some []
  | a :: l =>
    match g a, mapOptionAll g l with
    | some b, some bs => some (b :: bs)
    | _, _ => none

/-- Lines 212-274 of `_prepare_batch`: assemble the two sub-batches from the
samples that survived both filters (and their fbanks, kept aligned by the
same zip-filter).  `units_list_raw.any Option.isNone` is Python's
`None in units_list_raw`. -/
def assemble (cfg : BatchingConfig) (tk : TokInfo) (samples : List LangPairSample)
    (src_tokens_list : List (List (List FVal))) : MultimodalSeqsBatch :=
  let src_tokens := batch_tensors src_tokens_list
    (List.replicate num_mel_bins (FVal.fin (cfg.fbank_feats_pad_idx : ℚ)))
  let src_lengths := src_tokens_list.map List.length
  let text_tokens_list := samples.map (get_tokenized_target_text tk)
  let prev_outputs_tokens := batch_tensors (text_tokens_list.map List.dropLast) tk.text_pad
  let target_tokens := batch_tensors (text_tokens_list.map (List.drop 1)) tk.text_pad
  let tokens_lengths := text_tokens_list.map fun tokens => tokens.length - 1
  let units_list_raw := samples.map (get_tokenized_units tk)
  let units_triple : Option (List (List ℤ)) × Option (List (List ℤ)) × Option (List ℕ) :=
    if units_list_raw.any Option.isNone then (none, none, none)
    else
      let units_list := units_list_raw.filterMap id
      (some (batch_tensors (units_list.map List.dropLast) tk.unit_pad),
       some (batch_tensors (units_list.map (List.drop 1)) tk.unit_pad),
       some (units_list.map fun tokens => tokens.length - 1))
  { speech_to_text :=
      { src_tokens := some src_tokens
        src_lengths := some src_lengths
        target_tokens := some target_tokens
        prev_output_tokens := some prev_outputs_tokens
        target_lengths := some tokens_lengths }
    text_to_units :=
      { src_tokens := none
        src_lengths := none
        target_tokens := units_triple.2.1
        prev_output_tokens := units_triple.1
        target_lengths := units_triple.2.2 } }

/-- Lines 208-274 of `_prepare_batch`: compute `with_nans` over the
extracted fbanks, drop the flagged samples (and, by the same zip, their
fbanks), fail on `assert len(samples) > 0` (`none`), else assemble. -/
def nan_stage_and_assemble (cfg : BatchingConfig) (tk : TokInfo)
    (samples : List LangPairSample)
    (src_tokens_list : List (List (List FVal))) : Option MultimodalSeqsBatch :=
  let with_nans := src_tokens_list.map fbank_has_nan
  let samples2 := (samples.zip with_nans).filterMap
    fun p => if p.2 then none else some p.1
  let src_tokens_list2 := (src_tokens_list.zip with_nans).filterMap
    fun p => if p.2 then none else some p.1
  if samples2.isEmpty then none
  else some (assemble cfg tk samples2 src_tokens_list2)

/-- `_prepare_batch` (the collate function): duration filter with fallback,
fbank extraction (whose asserts abort the whole call), NaN filter over the
extracted fbanks, the `assert len(samples) > 0`, then batch assembly.
`none` models an aborted (fatally failed) collate call. -/
def prepare_batch (cfg : BatchingConfig) (tk : TokInfo)
    (raw_samples : List LangPairSample) : Option MultimodalSeqsBatch :=
  (duration_stage cfg raw_samples).bind fun samples =>
    (mapOptionAll get_source_fbank samples).bind fun src_tokens_list =>
      nan_stage_and_assemble cfg tk samples src_tokens_list

/-- The samples surviving both the duration filter (with its fallback) and
the NaN filter, for stating which samples a batch is built from; `none`
when the collate input was empty. -/
def both_filter_survivors (cfg : BatchingConfig) (raw_samples : List LangPairSample) :
    Option (List LangPairSample) :=
  (duration_stage cfg raw_samples).map fun kept =>
    kept.filter fun s => !fbank_has_nan s.fbank

/-- `worker_init_fn`: `np.random.seed(np.random.get_state()[1][0] + worker_id)`.
`key0` is the first word of the global generator's key (a uint32);
`np.random.seed` accepts exactly the range `[0, 2^32)` and raises
`ValueError` (modelled `none`) otherwise. -/
def worker_init_fn (key0 worker_id : ℕ) : Option ℕ :=
  if key0 + worker_id < 2 ^ 32 then some (key0 + worker_id) else none

/-! Concrete data used to instantiate the theorems below on executable
inputs. -/

/-- Example tokenizer indices: text eos 7, text pad 0, unit eos 8, unit pad 1. -/
def exTk : TokInfo := ⟨7, 0, 8, 1⟩

/-- Example batching configuration: all defaults. -/
def exCfg : BatchingConfig := {}

/-- A well-formed sample: 0.1 s of mono 16 kHz audio, a finite 2x2 fbank,
two text tokens, two unit tokens. -/
def exGood : LangPairSample :=
  { wav_shape := [1600], sample_rate := 16000,
    fbank := [[.fin 1, .fin 2], [.fin 3, .fin 4]],
    text_encoded := [10, 11], units_encoded := some [20, 21] }

/-- A second well-formed sample with longer sequences and no units. -/
def exGood2 : LangPairSample :=
  { wav_shape := [3200], sample_rate := 16000,
    fbank := [[.fin 5, .fin 6]],
    text_encoded := [12, 13, 14], units_encoded := none }

/-- The batch assembled from `exGood` alone. -/
def exBatch : MultimodalSeqsBatch := assemble exCfg exTk [exGood] [exGood.fbank]

/-- The batch assembled from `exGood` and `exGood2` together. -/
def exBatch2 : MultimodalSeqsBatch :=
  assemble exCfg exTk [exGood, exGood2] [exGood.fbank, exGood2.fbank]

/-- A sample whose fbank holds an infinity but no NaN. -/
def sInf : LangPairSample :=
  { wav_shape := [1600], sample_rate := 16000, fbank := [[.posInf]],
    text_encoded := [], units_encoded := none }

/-- A sample whose fbank holds a NaN. -/
def sNaN : LangPairSample :=
  { wav_shape := [1600], sample_rate := 16000, fbank := [[.nan]],
    text_encoded := [], units_encoded := none }

/-- A configuration whose duration bound is the exactly-representable float
`1/8192` seconds (≈ 0.000122 s). -/
def cfgTiny : BatchingConfig := { max_audio_length_sec := mkRat 1 8192 }

/-- A 1-D waveform of a single audio sample: duration 1/16000 s. -/
def sOneFrame1d : LangPairSample :=
  { wav_shape := [1], sample_rate := 16000, fbank := [[.fin 0]],
    text_encoded := [], units_encoded := none }

/-- A stereo waveform holding one frame per channel (`torchaudio` shape
`(2, 1)`): one audio sample per channel, so its duration is 1/16000 s. -/
def sOneFrame2ch : LangPairSample :=
  { wav_shape := [2, 1], sample_rate := 16000, fbank := [[.fin 0]],
    text_encoded := [], units_encoded := none }

/-! Helper lemmas about `listMax`, `batch_tensors`, the zip-based filters and
`mapOptionAll`, shared by the claim theorems. -/

theorem le_foldl_max (l : List ℕ) (b : ℕ) : b ≤ l.foldl Nat.max b := by
  induction l generalizing b with
  | nil => simp
  | cons a l ih => exact le_trans (Nat.le_max_left b a) (ih (Nat.max b a))

theorem mem_le_foldl_max {l : List ℕ} {a : ℕ} (h : a ∈ l) (b : ℕ) :
    a ≤ l.foldl Nat.max b := by
  induction l generalizing b with
  | nil => cases h
  | cons x l ih =>
    rcases List.mem_cons.mp h with rfl | hmem
    · exact le_trans (Nat.le_max_right b a) (le_foldl_max l (Nat.max b a))
    · exact ih hmem (Nat.max b x)

theorem le_listMax_of_mem {l : List ℕ} {a : ℕ} (h : a ∈ l) : a ≤ listMax l :=
  mem_le_foldl_max h 0

theorem foldl_max_le {l : List ℕ} {n : ℕ} (b : ℕ) (hb : b ≤ n)
    (h : ∀ a ∈ l, a ≤ n) : l.foldl Nat.max b ≤ n := by
  induction l generalizing b with
  | nil => simpa using hb
  | cons x l ih =>
    exact ih (Nat.max b x)
      (Nat.max_le.mpr ⟨hb, h x (List.mem_cons_self x l)⟩)
      (fun a ha => h a (List.mem_cons_of_mem x ha))

theorem listMax_of_all_eq {l : List ℕ} {n : ℕ} (hne : l ≠ [])
    (h : ∀ a ∈ l, a = n) : listMax l = n := by
  apply le_antisymm
  · exact foldl_max_le 0 (Nat.zero_le n) (fun a ha => le_of_eq (h a ha))
  · match l, hne with
    | a :: l, _ =>
      have ha : a = n := h a (List.mem_cons_self a l)
      exact ha ▸ le_listMax_of_mem (List.mem_cons_self a l)

theorem batch_tensors_length {σ : Type} (ts : List (List σ)) (p : σ) :
    (batch_tensors ts p).length = ts.length := by
  simp [batch_tensors]

theorem batch_tensors_get {σ : Type} (ts : List (List σ)) (p : σ) (i : ℕ)
    (h : i < (batch_tensors ts p).length) (h2 : i < ts.length) :
    (batch_tensors ts p).get ⟨i, h⟩ =
      ts.get ⟨i, h2⟩ ++
        List.replicate (listMax (ts.map List.length) - (ts.get ⟨i, h2⟩).length) p := by
  simp [batch_tensors]

theorem batch_tensors_row_length {σ : Type} (ts : List (List σ)) (p : σ)
    (r : List σ) (hr : r ∈ batch_tensors ts p) :
    r.length = listMax (ts.map List.length) := by
  simp only [batch_tensors, List.mem_map] at hr
  obtain ⟨t, ht, rfl⟩ := hr
  have hle : t.length ≤ listMax (ts.map List.length) :=
    le_listMax_of_mem (List.mem_map_of_mem List.length ht)
  simp only [List.length_append, List.length_replicate]
  omega

theorem batch_tensors_mem {σ : Type} (ts : List (List σ)) (p : σ) (r : List σ)
    (hr : r ∈ batch_tensors ts p) :
    ∃ t ∈ ts, r = t ++ List.replicate (listMax (ts.map List.length) - t.length) p := by
  simp only [batch_tensors, List.mem_map] at hr
  obtain ⟨t, ht, rfl⟩ := hr
  exact ⟨t, ht, rfl⟩

theorem zip_self_map_filter {α : Type} (l : List α) (f : α → Bool) :
    ((l.zip (l.map f)).filterMap fun p => if p.2 then none else some p.1) =
      l.filter fun x => !f x := by
  induction l with
  | nil => rfl
  | cons a l ih =>
    simp only [List.map_cons, List.zip_cons_cons, List.filterMap_cons]
    cases hfa : f a <;> simp [List.filter_cons, hfa, ih]

theorem zip_map_map_filter {α β : Type} (l : List α) (g : α → β) (f : α → Bool) :
    (((l.map g).zip (l.map f)).filterMap fun p => if p.2 then none else some p.1) =
      (l.filter fun x => !f x).map g := by
  induction l with
  | nil => rfl
  | cons a l ih =>
    simp only [List.map_cons, List.zip_cons_cons, List.filterMap_cons]
    cases hfa : f a <;> simp [List.filter_cons, hfa, ih]

theorem get_source_fbank_eq_some {s : LangPairSample} {v : List (List FVal)}
    (h : get_source_fbank s = some v) : v = s.fbank := by
  unfold get_source_fbank at h
  split at h
  · exact (Option.some.injEq _ _ ▸ h).symm
  · cases h

theorem mapOptionAll_eq_some_iff (l : List LangPairSample)
    (res : List (List (List FVal))) :
    mapOptionAll get_source_fbank l = some res ↔
      ((∀ s ∈ l, (get_source_fbank s).isSome = true) ∧
        res = l.map LangPairSample.fbank) := by
  induction l generalizing res with
  | nil =>
    constructor
    · intro h
      refine ⟨?_, ?_⟩
      · intro s hs; cases hs
      · simpa [mapOptionAll] using h.symm
    · rintro ⟨-, h⟩
      simp [mapOptionAll, h]
  | cons a l ih =>
    simp only [mapOptionAll]
    cases hga : get_source_fbank a with
    | none =>
      constructor
      · intro h; cases h
      · rintro ⟨hall, -⟩
        have := hall a (List.mem_cons_self a l)
        rw [hga] at this; cases this
    | some v =>
      have hv : v = a.fbank := get_source_fbank_eq_some hga
      cases hm : mapOptionAll get_source_fbank l with
      | none =>
        constructor
        · intro h; cases h
        · rintro ⟨hall, -⟩
          have h2 : mapOptionAll get_source_fbank l = some (l.map LangPairSample.fbank) :=
            (ih _).mpr ⟨fun s hs => hall s (List.mem_cons_of_mem a hs), rfl⟩
          rw [hm] at h2; cases h2
      | some bs =>
        obtain ⟨hall, rfl⟩ := (ih bs).mp hm
        constructor
        · intro h
          have hres : res = v :: l.map LangPairSample.fbank :=
            (Option.some.injEq _ _ ▸ h).symm
          subst hres hv
          refine ⟨fun s hs => ?_, by simp⟩
          rcases List.mem_cons.mp hs with rfl | hmem
          · rw [hga]; rfl
          · exact hall s hmem
        · rintro ⟨-, rfl⟩
          subst hv
          simp

theorem filterMap_id_map_getD {α β : Type} (g : α → Option β) (d : β)
    (l : List α) (h : ∀ x ∈ l, (g x).isSome = true) :
    (l.map g).filterMap id = l.map fun x => (g x).getD d := by
  induction l with
  | nil => rfl
  | cons a l ih =>
    have ha := h a (List.mem_cons_self a l)
    cases hga : g a with
    | none => rw [hga] at ha; cases ha
    | some b =>
      simp only [List.map_cons, List.filterMap_cons, hga, id]
      rw [ih fun x hx => h x (List.mem_cons_of_mem a hx)]
      rfl

/-- Inversion principle for a successful collate call: `_prepare_batch`
returns a batch exactly when the duration stage produced a non-empty kept
list, every kept sample passed the `_get_source_fbank` asserts, the NaN
filter left at least one sample, and the batch is the assembly of the
NaN-clean survivors and their fbanks. -/
theorem prepare_batch_eq_some_iff (cfg : BatchingConfig) (tk : TokInfo)
    (raw : List LangPairSample) (b : MultimodalSeqsBatch) :
    prepare_batch cfg tk raw = some b ↔
      ∃ kept, duration_stage cfg raw = some kept ∧
        (∀ s ∈ kept, (get_source_fbank s).isSome = true) ∧
        (kept.filter fun s => !fbank_has_nan s.fbank) ≠ [] ∧
        b = assemble cfg tk (kept.filter fun s => !fbank_has_nan s.fbank)
              ((kept.filter fun s => !fbank_has_nan s.fbank).map LangPairSample.fbank) := by
  unfold prepare_batch
  rcases hds : duration_stage cfg raw with - | kept
  · simp
  · simp only [Option.some_bind]
    rcases hm : mapOptionAll get_source_fbank kept with - | stl
    · simp only [Option.none_bind]
      constructor
      · intro h; cases h
      · rintro ⟨kept2, hk, hall, -, -⟩
        injection hk with hk2
        subst hk2
        have h2 := (mapOptionAll_eq_some_iff kept _).mpr ⟨hall, rfl⟩
        rw [hm] at h2
        cases h2
    · simp only [Option.some_bind]
      obtain ⟨hall, hstl⟩ := (mapOptionAll_eq_some_iff kept stl).mp hm
      subst hstl
      unfold nan_stage_and_assemble
      simp only [List.map_map]
      rw [zip_self_map_filter kept (fbank_has_nan ∘ LangPairSample.fbank),
        zip_map_map_filter kept LangPairSample.fbank (fbank_has_nan ∘ LangPairSample.fbank)]
      simp only [Function.comp_apply]
      constructor
      · intro h
        split at h
        · cases h
        · rename_i hne
          refine ⟨kept, rfl, hall, ?_, ?_⟩
          · intro hcontra
            rw [hcontra] at hne
            simp at hne
          · injection h with h2
            exact h2.symm
      · rintro ⟨kept2, hk, -, hne, rfl⟩
        injection hk with hk2
        subst hk2
        split
        · rename_i hemp
          rw [List.isEmpty_iff] at hemp
          exact absurd hemp hne
        · rfl



/-! Projections of `assemble`, and the unit-presence condition, used by the
claim theorems. -/
theorem assemble_src_tokens (cfg : BatchingConfig) (tk : TokInfo)
    (samples : List LangPairSample) (stl : List (List (List FVal))) :
    (assemble cfg tk samples stl).speech_to_text.src_tokens =
      some (batch_tensors stl
        (List.replicate num_mel_bins (FVal.fin (cfg.fbank_feats_pad_idx : ℚ)))) := rfl

theorem assemble_src_lengths (cfg : BatchingConfig) (tk : TokInfo)
    (samples : List LangPairSample) (stl : List (List (List FVal))) :
    (assemble cfg tk samples stl).speech_to_text.src_lengths =
      some (stl.map List.length) := rfl

theorem assemble_prev_text (cfg : BatchingConfig) (tk : TokInfo)
    (samples : List LangPairSample) (stl : List (List (List FVal))) :
    (assemble cfg tk samples stl).speech_to_text.prev_output_tokens =
      some (batch_tensors
        ((samples.map (get_tokenized_target_text tk)).map List.dropLast)
        tk.text_pad) := rfl

theorem assemble_target_text (cfg : BatchingConfig) (tk : TokInfo)
    (samples : List LangPairSample) (stl : List (List (List FVal))) :
    (assemble cfg tk samples stl).speech_to_text.target_tokens =
      some (batch_tensors
        ((samples.map (get_tokenized_target_text tk)).map (List.drop 1))
        tk.text_pad) := rfl

theorem assemble_text_lengths (cfg : BatchingConfig) (tk : TokInfo)
    (samples : List LangPairSample) (stl : List (List (List FVal))) :
    (assemble cfg tk samples stl).speech_to_text.target_lengths =
      some ((samples.map (get_tokenized_target_text tk)).map
        fun tokens => tokens.length - 1) := rfl

theorem units_cond_eq (tk : TokInfo) (samples : List LangPairSample) :
    (samples.map (get_tokenized_units tk)).any Option.isNone =
      samples.any fun s => s.units_encoded.isNone := by
  induction samples with
  | nil => rfl
  | cons a l ih =>
    cases hu : a.units_encoded <;>
      simp [get_tokenized_units, hu, List.any_cons, ih]

theorem assemble_units_none (cfg : BatchingConfig) (tk : TokInfo)
    (samples : List LangPairSample) (stl : List (List (List FVal)))
    (h : (samples.map (get_tokenized_units tk)).any Option.isNone = true) :
    (assemble cfg tk samples stl).text_to_units.target_tokens = none ∧
    (assemble cfg tk samples stl).text_to_units.prev_output_tokens = none ∧
    (assemble cfg tk samples stl).text_to_units.target_lengths = none := by
  unfold assemble
  simp only [h]
  exact ⟨rfl, rfl, rfl⟩

theorem assemble_units_some (cfg : BatchingConfig) (tk : TokInfo)
    (samples : List LangPairSample) (stl : List (List (List FVal)))
    (h : (samples.map (get_tokenized_units tk)).any Option.isNone = false) :
    (assemble cfg tk samples stl).text_to_units.target_tokens =
      some (batch_tensors
        (((samples.map (get_tokenized_units tk)).filterMap id).map (List.drop 1))
        tk.unit_pad) ∧
    (assemble cfg tk samples stl).text_to_units.prev_output_tokens =
      some (batch_tensors
        (((samples.map (get_tokenized_units tk)).filterMap id).map List.dropLast)
        tk.unit_pad) ∧
    (assemble cfg tk samples stl).text_to_units.target_lengths =
      some (((samples.map (get_tokenized_units tk)).filterMap id).map
        fun tokens => tokens.length - 1) := by
  unfold assemble
  simp only [h]
  exact ⟨rfl, rfl, rfl⟩

theorem units_all_some (tk : TokInfo) (samples : List LangPairSample)
    (h : (samples.map (get_tokenized_units tk)).any Option.isNone = false) :
    ∀ s ∈ samples, (get_tokenized_units tk s).isSome = true := by
  intro s hs
  have hmem : get_tokenized_units tk s ∈ samples.map (get_tokenized_units tk) :=
    List.mem_map_of_mem _ hs
  have := List.any_eq_false.mp h _ hmem
  cases hgs : get_tokenized_units tk s
  · rw [hgs] at this; simp at this
  · rfl

/-- C8: `_batch_tensors` is the identity stack on already-aligned batches:
for a non-empty list of sequences all of the same leading-dimension length,
the assembled batch is exactly the list of unmodified inputs — no element
value is altered. -/
theorem C8_padding_identity {σ : Type} (tensors : List (List σ))
    (pad_value : σ) (n : ℕ) (hne : tensors ≠ [])
    (hlen : ∀ t ∈ tensors, t.length = n) :
    batch_tensors tensors pad_value = tensors := by
  have hmax : listMax (tensors.map List.length) = n :=
    listMax_of_all_eq (by simpa using hne) (by simpa using hlen)
  simp only [batch_tensors]
  rw [hmax]
  have hcongr : tensors.map (fun t => t ++ List.replicate (n - t.length) pad_value)
      = tensors.map id := by
    apply List.map_congr_left
    intro t ht
    simp [hlen t ht]
  simpa using hcongr

/-- C8 witness: a concrete already-aligned batch is returned unchanged. -/
theorem C8_witness :
    ([[1, 2], [3, 4]] : List (List ℤ)) ≠ [] ∧
    batch_tensors ([[1, 2], [3, 4]] : List (List ℤ)) (0 : ℤ) = [[1, 2], [3, 4]] :=
  ⟨by decide, C8_padding_identity [[1, 2], [3, 4]] 0 2 (by decide) (by decide)⟩

/-- C9: the per-worker seed is a deterministic function of the global
generator's first key word and the worker index (two runs with the same
inputs set the same seed), and distinct worker indices always set distinct
seeds. -/
theorem C9_worker_seeding (key0 w1 w2 s1 t1 s2 : ℕ)
    (h1 : worker_init_fn key0 w1 = some s1)
    (h1b : worker_init_fn key0 w1 = some t1)
    (h2 : worker_init_fn key0 w2 = some s2)
    (hw : w1 ≠ w2) :
    s1 = t1 ∧ s1 ≠ s2 := by
  unfold worker_init_fn at h1 h1b h2
  by_cases hk1 : key0 + w1 < 2 ^ 32
  · rw [if_pos hk1] at h1 h1b
    by_cases hk2 : key0 + w2 < 2 ^ 32
    · rw [if_pos hk2] at h2
      injection h1 with e1
      injection h1b with e2
      injection h2 with e3
      constructor
      · omega
      · intro hcon
        apply hw
        omega
    · rw [if_neg hk2] at h2
      cases h2
  · rw [if_neg hk1] at h1
    cases h1

/-- C9 witness: with key word 5, workers 0 and 1 set seeds 5 and 6. -/
theorem C9_witness : worker_init_fn 5 0 = some 5 ∧ ((5 : ℕ) = 5 ∧ (5 : ℕ) ≠ 6) :=
  ⟨by decide,
    C9_worker_seeding 5 0 1 5 5 6 (by decide) (by decide) (by decide) (by decide)⟩

/-- C7 counterexample: a 2-D waveform of shape (3, 1) — first dimension 3,
not ≤ 2, so by the claim it should hit the fatal assertion — is instead
passed through `_get_source_fbank`'s layout normalization unchanged. -/
theorem C7_counterexample :
    normalize_wav (RawWav.d2 [[1], [2], [3]]) = some [[1], [2], [3]] ∧
    ¬ ([[(1 : ℚ)], [2], [3]].length ≤ 2) := by decide

/-- C7 amended: a 1-D waveform is promoted to a trailing channel dimension
of size 1; a 2-D waveform with first dimension ≤ 2 is transposed to
trailing-channel layout; a 2-D waveform with first dimension > 2 is passed
through unchanged; and the fatal assertion fires exactly for waveforms
whose dimensionality is outside {1, 2}. -/
theorem C7_amended (xs : List ℚ) (xss yss : List (List ℚ)) (n : ℕ)
    (hx : xss.length ≤ 2) (hy : 2 < yss.length) :
    normalize_wav (RawWav.d1 xs) = some (xs.map fun x => [x]) ∧
    normalize_wav (RawWav.d2 xss) = some xss.transpose ∧
    normalize_wav (RawWav.d2 yss) = some yss ∧
    normalize_wav (RawWav.other n) = none := by
  refine ⟨rfl, ?_, ?_, rfl⟩
  · simp [normalize_wav, hx]
  · simp [normalize_wav, Nat.not_le.mpr hy]

/-- C7 witness: the four layout cases evaluated on concrete waveforms. -/
theorem C7_witness :
    normalize_wav (RawWav.d1 [5]) = some ([5].map fun x => [x]) ∧
    normalize_wav (RawWav.d2 [[1, 2]]) = some ([[1, 2]] : List (List ℚ)).transpose ∧
    normalize_wav (RawWav.d2 [[4], [5], [6]]) = some [[4], [5], [6]] ∧
    normalize_wav (RawWav.other 3) = none := by
  obtain ⟨h1, h2, h3, h4⟩ :=
    C7_amended [5] [[1, 2]] [[4], [5], [6]] 3 (by decide) (by decide)
  exact ⟨h1, h2, h3, h4⟩

/-- C2 counterexample: with the duration bound set to the exactly
float-representable value 1/8192 s, the collate input holds a stereo sample
of one frame per channel (`torchaudio` shape (2, 1)).  Its duration by the
claim's formula — audio samples over sample rate, 1/16000 s — does not
exceed the bound, yet the duration filter drops it (the code compares
`max(wav.shape) / sample_rate` = 2/16000 s): only the first sample
survives. -/
theorem C2_counterexample :
    duration_stage cfgTiny [sOneFrame1d, sOneFrame2ch] = some [sOneFrame1d] ∧
    mkRat 1 16000 ≤ cfgTiny.max_audio_length_sec := by decide

/-- C2 amended: the duration filter drops exactly the samples whose
`max(wav.shape) / sample_rate` (equal to samples over sample rate whenever
the frame count is at least the channel count) strictly exceeds
`max_audio_length_sec`, keeping all others in order; if every sample of the
non-empty collate input exceeds the bound, the stage instead keeps exactly
the first sample of the original list. -/
theorem C2_amended (cfg : BatchingConfig) (first : LangPairSample)
    (rest : List LangPairSample) :
    ((first :: rest).all (fun s => is_long_src_audio cfg s) = true →
      duration_stage cfg (first :: rest) = some [first]) ∧
    ((first :: rest).all (fun s => is_long_src_audio cfg s) = false →
      duration_stage cfg (first :: rest) =
        some ((first :: rest).filter fun s => !is_long_src_audio cfg s)) := by
  constructor
  · intro hall
    unfold duration_stage
    have hfil : ((first :: rest).filter fun s => !is_long_src_audio cfg s) = [] := by
      rw [List.filter_eq_nil_iff]
      intro a ha
      have := List.all_eq_true.mp hall a ha
      simp [this]
    rw [hfil]
    rfl
  · intro hall
    unfold duration_stage
    obtain ⟨x, hx, hpx⟩ := List.all_eq_false.mp hall
    have hfil : ((first :: rest).filter fun s => !is_long_src_audio cfg s) ≠ [] := by
      apply List.ne_nil_of_mem (a := x)
      exact List.mem_filter.mpr ⟨hx, by simp_all⟩
    rw [if_neg]
    simp [List.isEmpty_iff, hfil]

/-- C2 witness: both branches instantiated — an all-long batch keeps
exactly its first sample; a batch with no long samples is kept whole. -/
theorem C2_witness :
    duration_stage cfgTiny [sOneFrame2ch, sOneFrame2ch] = some [sOneFrame2ch] ∧
    duration_stage exCfg [exGood, exGood2] = some [exGood, exGood2] := by
  constructor
  · exact (C2_amended cfgTiny sOneFrame2ch [sOneFrame2ch]).1 (by decide)
  · have h := (C2_amended exCfg exGood [exGood2]).2 (by decide)
    rw [h]
    decide

/-- C6: a collate call that returns a batch has at least one sample
surviving the NaN filter; and when the NaN filter eliminates every
duration-stage survivor, the collate call aborts fatally (`none`) — this
stage has no keep-one-sample fallback. -/
theorem C6_nan_filter_fatal (cfg : BatchingConfig) (tk : TokInfo)
    (raw : List LangPairSample) :
    ((prepare_batch cfg tk raw).isSome = true →
      (both_filter_survivors cfg raw).map List.isEmpty = some false) ∧
    (both_filter_survivors cfg raw = some [] →
      prepare_batch cfg tk raw = none) := by
  constructor
  · intro h
    rw [Option.isSome_iff_exists] at h
    obtain ⟨b, hb⟩ := h
    obtain ⟨kept, hds, -, hne, -⟩ := (prepare_batch_eq_some_iff cfg tk raw b).mp hb
    unfold both_filter_survivors
    rw [hds]
    have hfe : (kept.filter fun s => !fbank_has_nan s.fbank).isEmpty = false := by
      cases hfe2 : (kept.filter fun s => !fbank_has_nan s.fbank).isEmpty with
      | false => rfl
      | true => exact absurd (List.isEmpty_iff.mp hfe2) hne
    exact congrArg some hfe
  · intro h
    unfold both_filter_survivors at h
    cases hds : duration_stage cfg raw with
    | none =>
      rw [hds] at h
      cases h
    | some kept =>
      rw [hds] at h
      injection h with h2
      cases hpb : prepare_batch cfg tk raw with
      | none => rfl
      | some b =>
        obtain ⟨kept2, hds2, -, hne, -⟩ := (prepare_batch_eq_some_iff cfg tk raw b).mp hpb
        rw [hds] at hds2
        injection hds2 with hk
        subst hk
        exact absurd h2 hne

/-- C6 witness: a clean batch leaves a non-empty NaN-filter survivor list;
a batch whose only sample has a NaN fbank makes the collate call abort. -/
theorem C6_witness :
    (both_filter_survivors exCfg [exGood]).map List.isEmpty = some false ∧
    prepare_batch exCfg exTk [sNaN] = none :=
  ⟨(C6_nan_filter_fatal exCfg exTk [exGood]).1 (by decide),
   (C6_nan_filter_fatal exCfg exTk [sNaN]).2 (by decide)⟩

/-- C3: in a successfully assembled batch, if any sample that survived both
filters has no unit sequence, the text-to-units sub-batch's target tokens,
previous-output tokens and target lengths are all absent (`none`); if every
surviving sample has a unit sequence, all three are present. -/
theorem C3_unit_absence (cfg : BatchingConfig) (tk : TokInfo)
    (raw : List LangPairSample) (b : MultimodalSeqsBatch)
    (sv : List LangPairSample)
    (h : prepare_batch cfg tk raw = some b)
    (hsv : both_filter_survivors cfg raw = some sv) :
    ((sv.any fun s => s.units_encoded.isNone) = true →
      b.text_to_units.target_tokens = none ∧
      b.text_to_units.prev_output_tokens = none ∧
      b.text_to_units.target_lengths = none) ∧
    ((sv.any fun s => s.units_encoded.isNone) = false →
      b.text_to_units.target_tokens.isSome = true ∧
      b.text_to_units.prev_output_tokens.isSome = true ∧
      b.text_to_units.target_lengths.isSome = true) := by
  obtain ⟨kept, hds, -, -, rfl⟩ := (prepare_batch_eq_some_iff cfg tk raw b).mp h
  unfold both_filter_survivors at hsv
  rw [hds] at hsv
  injection hsv with hsv2
  subst hsv2
  constructor
  · intro hany
    exact assemble_units_none cfg tk _ _ ((units_cond_eq tk _).symm ▸ hany)
  · intro hany
    obtain ⟨h1, h2, h3⟩ :=
      assemble_units_some cfg tk _ _ ((units_cond_eq tk _).symm ▸ hany)
    rw [h1, h2, h3]
    exact ⟨rfl, rfl, rfl⟩

/-- C3 witness: a mixed batch (one sample with units, one without) has all
three unit-side tensors absent; an all-units batch has all three present. -/
theorem C3_witness :
    ((exBatch2.text_to_units.target_tokens = none ∧
      exBatch2.text_to_units.prev_output_tokens = none ∧
      exBatch2.text_to_units.target_lengths = none) ∧
     (exBatch.text_to_units.target_tokens.isSome = true ∧
      exBatch.text_to_units.prev_output_tokens.isSome = true ∧
      exBatch.text_to_units.target_lengths.isSome = true)) :=
  ⟨(C3_unit_absence exCfg exTk [exGood, exGood2] exBatch2 [exGood, exGood2]
      (by decide) (by decide)).1 (by decide),
   (C3_unit_absence exCfg exTk [exGood] exBatch [exGood]
      (by decide) (by decide)).2 (by decide)⟩

/-- C1 counterexample: a sample whose fbank holds a positive infinity — a
non-finite value that is not NaN — passes the NaN filter, and the assembled
batch's source tokens contain that non-finite entry. -/
theorem C1_counterexample :
    ((prepare_batch exCfg exTk [sInf]).bind fun b => b.speech_to_text.src_tokens)
        = some [[[FVal.posInf]]] ∧
    FVal.posInf.isFinite = false := by decide

/-- C1 amended: the filter drops exactly the samples whose fbank contains a
NaN (not every non-finite value), so every entry of every source-token
matrix of an assembled batch is non-NaN (sample entries because their
samples survived the NaN filter, padding entries because the pad value is a
finite constant). -/
theorem C1_amended (cfg : BatchingConfig) (tk : TokInfo)
    (raw : List LangPairSample) (b : MultimodalSeqsBatch)
    (sts : List (List (List FVal)))
    (h : prepare_batch cfg tk raw = some b)
    (hs : b.speech_to_text.src_tokens = some sts) :
    (sts.all fun m => m.all fun row => row.all fun v => !v.isNaN) = true := by
  obtain ⟨kept, -, -, -, rfl⟩ := (prepare_batch_eq_some_iff cfg tk raw b).mp h
  rw [assemble_src_tokens] at hs
  injection hs with hs2
  subst hs2
  rw [List.all_eq_true]
  intro m hm
  obtain ⟨t, ht, rfl⟩ := batch_tensors_mem _ _ m hm
  rw [List.all_eq_true]
  intro row hrow
  rcases List.mem_append.mp hrow with hrt | hrp
  · obtain ⟨s, hsmem, rfl⟩ := List.mem_map.mp ht
    have hsurv : (!fbank_has_nan s.fbank) = true := (List.mem_filter.mp hsmem).2
    have hnonan : fbank_has_nan s.fbank = false := by simpa using hsurv
    unfold fbank_has_nan at hnonan
    rw [List.any_eq_false] at hnonan
    have hrowfalse := hnonan row hrt
    rw [List.all_eq_true]
    intro v hv
    have hvn : v.isNaN = false := by
      have := List.any_eq_false.mp (by simpa using hrowfalse) v hv
      simpa using this
    simp [hvn]
  · rw [List.eq_of_mem_replicate hrp]
    rw [List.all_eq_true]
    intro v hv
    rw [List.eq_of_mem_replicate hv]
    rfl

/-- C1 witness: the amended no-NaN property evaluated on a concrete batch. -/
theorem C1_witness :
    (([[[FVal.fin 1, FVal.fin 2], [FVal.fin 3, FVal.fin 4]]].all
        fun m => m.all fun row => row.all fun v => !v.isNaN) = true) :=
  C1_amended exCfg exTk [exGood] exBatch
    [[[FVal.fin 1, FVal.fin 2], [FVal.fin 3, FVal.fin 4]]] (by decide) (by decide)

/-- C5: in every assembled batch, all present tensors of each sub-batch
share the same leading (batch) dimension, equal to the number of samples
that survived both filters (absent unit-side tensors are skipped via a
default that makes the equation vacuously about presence). -/
theorem C5_batch_alignment (cfg : BatchingConfig) (tk : TokInfo)
    (raw : List LangPairSample) (b : MultimodalSeqsBatch)
    (sv : List LangPairSample)
    (h : prepare_batch cfg tk raw = some b)
    (hsv : both_filter_survivors cfg raw = some sv) :
    b.speech_to_text.src_tokens.map List.length = some sv.length ∧
    b.speech_to_text.src_lengths.map List.length = some sv.length ∧
    b.speech_to_text.target_tokens.map List.length = some sv.length ∧
    b.speech_to_text.prev_output_tokens.map List.length = some sv.length ∧
    b.speech_to_text.target_lengths.map List.length = some sv.length ∧
    (b.text_to_units.target_tokens.map List.length).getD sv.length = sv.length ∧
    (b.text_to_units.prev_output_tokens.map List.length).getD sv.length = sv.length ∧
    (b.text_to_units.target_lengths.map List.length).getD sv.length = sv.length := by
  obtain ⟨kept, hds, -, -, rfl⟩ := (prepare_batch_eq_some_iff cfg tk raw b).mp h
  unfold both_filter_survivors at hsv
  rw [hds] at hsv
  injection hsv with hsv2
  subst hsv2
  refine ⟨?_, ?_, ?_, ?_, ?_, ?_, ?_, ?_⟩
  · rw [assemble_src_tokens]
    simp [batch_tensors_length]
  · rw [assemble_src_lengths]
    simp
  · rw [assemble_target_text]
    simp [batch_tensors_length]
  · rw [assemble_prev_text]
    simp [batch_tensors_length]
  · rw [assemble_text_lengths]
    simp
  · cases hcond : ((kept.filter fun s => !fbank_has_nan s.fbank).map
        (get_tokenized_units tk)).any Option.isNone with
    | true =>
      rw [(assemble_units_none cfg tk _ _ hcond).1]
      rfl
    | false =>
      rw [(assemble_units_some cfg tk _ _ hcond).1]
      rw [filterMap_id_map_getD (get_tokenized_units tk) [] _
        (units_all_some tk _ hcond)]
      simp [batch_tensors_length]
  · cases hcond : ((kept.filter fun s => !fbank_has_nan s.fbank).map
        (get_tokenized_units tk)).any Option.isNone with
    | true =>
      rw [(assemble_units_none cfg tk _ _ hcond).2.1]
      rfl
    | false =>
      rw [(assemble_units_some cfg tk _ _ hcond).2.1]
      rw [filterMap_id_map_getD (get_tokenized_units tk) [] _
        (units_all_some tk _ hcond)]
      simp [batch_tensors_length]
  · cases hcond : ((kept.filter fun s => !fbank_has_nan s.fbank).map
        (get_tokenized_units tk)).any Option.isNone with
    | true =>
      rw [(assemble_units_none cfg tk _ _ hcond).2.2]
      rfl
    | false =>
      rw [(assemble_units_some cfg tk _ _ hcond).2.2]
      rw [filterMap_id_map_getD (get_tokenized_units tk) [] _
        (units_all_some tk _ hcond)]
      simp

/-- C5 witness: the alignment equations evaluated on a concrete two-sample
batch (whose unit side is absent) and implied for its survivor count 2. -/
theorem C5_witness :
    exBatch2.speech_to_text.src_tokens.map List.length = some 2 ∧
    exBatch2.speech_to_text.src_lengths.map List.length = some 2 ∧
    exBatch2.speech_to_text.target_tokens.map List.length = some 2 ∧
    exBatch2.speech_to_text.prev_output_tokens.map List.length = some 2 ∧
    exBatch2.speech_to_text.target_lengths.map List.length = some 2 ∧
    (exBatch2.text_to_units.target_tokens.map List.length).getD 2 = 2 ∧
    (exBatch2.text_to_units.prev_output_tokens.map List.length).getD 2 = 2 ∧
    (exBatch2.text_to_units.target_lengths.map List.length).getD 2 = 2 :=
  C5_batch_alignment exCfg exTk [exGood, exGood2] exBatch2 [exGood, exGood2]
    (by decide) (by decide)

/-- C10: length bookkeeping records unpadded lengths — each source length
is the unpadded frame count of the corresponding surviving fbank, each
target length is the corresponding tokenized text length minus one, and
every padded tensor's sequence dimension (each row's length) equals the
maximum entry of its corresponding lengths vector. -/
theorem C10_length_bookkeeping (cfg : BatchingConfig) (tk : TokInfo)
    (raw : List LangPairSample) (b : MultimodalSeqsBatch)
    (sv : List LangPairSample)
    (h : prepare_batch cfg tk raw = some b)
    (hsv : both_filter_survivors cfg raw = some sv) :
    b.speech_to_text.src_lengths = some (sv.map fun s => s.fbank.length) ∧
    b.speech_to_text.target_lengths =
      some (sv.map fun s => (get_tokenized_target_text tk s).length - 1) ∧
    (b.speech_to_text.src_tokens.map fun ms =>
        ms.all fun m => m.length == listMax (sv.map fun s => s.fbank.length))
      = some true ∧
    (b.speech_to_text.prev_output_tokens.map fun rs =>
        rs.all fun r => r.length == listMax (sv.map fun s =>
          (get_tokenized_target_text tk s).length - 1)) = some true ∧
    (b.speech_to_text.target_tokens.map fun rs =>
        rs.all fun r => r.length == listMax (sv.map fun s =>
          (get_tokenized_target_text tk s).length - 1)) = some true := by
  obtain ⟨kept, hds, -, -, rfl⟩ := (prepare_batch_eq_some_iff cfg tk raw b).mp h
  unfold both_filter_survivors at hsv
  rw [hds] at hsv
  injection hsv with hsv2
  subst hsv2
  refine ⟨?_, ?_, ?_, ?_, ?_⟩
  · rw [assemble_src_lengths]
    simp [List.map_map, Function.comp]
  · rw [assemble_text_lengths]
    simp [List.map_map, Function.comp]
  · rw [assemble_src_tokens]
    have hall : ((batch_tensors
        ((kept.filter fun s => !fbank_has_nan s.fbank).map LangPairSample.fbank)
        (List.replicate num_mel_bins (FVal.fin (cfg.fbank_feats_pad_idx : ℚ)))).all
          fun m => m.length == listMax
            ((kept.filter fun s => !fbank_has_nan s.fbank).map
              fun s => s.fbank.length)) = true := by
      rw [List.all_eq_true]
      intro m hm
      have hrl := batch_tensors_row_length _ _ m hm
      rw [beq_iff_eq, hrl]
      congr 1
      simp [List.map_map, Function.comp]
    exact congrArg some hall
  · rw [assemble_prev_text]
    have hall : ((batch_tensors
        (((kept.filter fun s => !fbank_has_nan s.fbank).map
          (get_tokenized_target_text tk)).map List.dropLast) tk.text_pad).all
          fun r => r.length == listMax
            ((kept.filter fun s => !fbank_has_nan s.fbank).map
              fun s => (get_tokenized_target_text tk s).length - 1)) = true := by
      rw [List.all_eq_true]
      intro r hr
      have hrl := batch_tensors_row_length _ _ r hr
      rw [beq_iff_eq, hrl]
      congr 1
      simp [List.map_map, Function.comp, List.length_dropLast]
    exact congrArg some hall
  · rw [assemble_target_text]
    have hall : ((batch_tensors
        (((kept.filter fun s => !fbank_has_nan s.fbank).map
          (get_tokenized_target_text tk)).map (List.drop 1)) tk.text_pad).all
          fun r => r.length == listMax
            ((kept.filter fun s => !fbank_has_nan s.fbank).map
              fun s => (get_tokenized_target_text tk s).length - 1)) = true := by
      rw [List.all_eq_true]
      intro r hr
      have hrl := batch_tensors_row_length _ _ r hr
      rw [beq_iff_eq, hrl]
      congr 1
      simp [List.map_map, Function.comp]
    exact congrArg some hall

/-- C10 witness: the bookkeeping equations evaluated on a concrete
two-sample batch with heterogeneous lengths. -/
theorem C10_witness :
    exBatch2.speech_to_text.src_lengths
      = some ([exGood, exGood2].map fun s => s.fbank.length) ∧
    exBatch2.speech_to_text.target_lengths
      = some ([exGood, exGood2].map fun s =>
          (get_tokenized_target_text exTk s).length - 1) ∧
    (exBatch2.speech_to_text.src_tokens.map fun ms =>
        ms.all fun m => m.length ==
          listMax ([exGood, exGood2].map fun s => s.fbank.length)) = some true ∧
    (exBatch2.speech_to_text.prev_output_tokens.map fun rs =>
        rs.all fun r => r.length == listMax ([exGood, exGood2].map fun s =>
          (get_tokenized_target_text exTk s).length - 1)) = some true ∧
    (exBatch2.speech_to_text.target_tokens.map fun rs =>
        rs.all fun r => r.length == listMax ([exGood, exGood2].map fun s =>
          (get_tokenized_target_text exTk s).length - 1)) = some true :=
  C10_length_bookkeeping exCfg exTk [exGood, exGood2] exBatch2 [exGood, exGood2]
    (by decide) (by decide)

theorem take_length_append {α : Type} (l r : List α) : (l ++ r).take l.length = l := by
  induction l with
  | nil => rfl
  | cons a l ih => simp [List.take_cons, ih]

theorem shifted_views_get {α : Type} (seqs : List (List α)) (pad : α) (i : ℕ)
    (hi : i < seqs.length)
    (hp : i < (batch_tensors (seqs.map List.dropLast) pad).length)
    (ht : i < (batch_tensors (seqs.map (List.drop 1)) pad).length)
    (hl : i < (seqs.map fun t => t.length - 1).length) :
    ((batch_tensors (seqs.map List.dropLast) pad).get ⟨i, hp⟩).take
        ((seqs.get ⟨i, hi⟩).length - 1) = (seqs.get ⟨i, hi⟩).dropLast ∧
    ((batch_tensors (seqs.map (List.drop 1)) pad).get ⟨i, ht⟩).take
        ((seqs.get ⟨i, hi⟩).length - 1) = (seqs.get ⟨i, hi⟩).drop 1 ∧
    (seqs.map fun t => t.length - 1).get ⟨i, hl⟩ = (seqs.get ⟨i, hi⟩).length - 1 := by
  have hp2 : i < (seqs.map List.dropLast).length := by simpa using hi
  have ht2 : i < (seqs.map (List.drop 1)).length := by simpa using hi
  refine ⟨?_, ?_, ?_⟩
  · rw [batch_tensors_get _ pad i hp hp2]
    have hget : (seqs.map List.dropLast).get ⟨i, hp2⟩ = (seqs.get ⟨i, hi⟩).dropLast := by
      simp
    rw [hget]
    rw [← List.length_dropLast]
    exact take_length_append _ _
  · rw [batch_tensors_get _ pad i ht ht2]
    have hget : (seqs.map (List.drop 1)).get ⟨i, ht2⟩ = (seqs.get ⟨i, hi⟩).drop 1 := by
      simp
    rw [hget]
    have hlen : (seqs.get ⟨i, hi⟩).length - 1 = ((seqs.get ⟨i, hi⟩).drop 1).length := by
      simp
    rw [hlen]
    exact take_length_append _ _
  · simp



set_option maxHeartbeats 4000000 in
/-- C4: for every tokenized target sequence of the batch — the text sequence
`S = text_encoded ++ [eos]` of the i-th surviving sample unconditionally,
and the unit sequence `SU = units ++ [eos]` whenever the text-to-units
sub-batch is present — row i of the previous-output tensor starts with the
sequence minus its final element, row i of the target tensor starts with
the sequence minus its first element (both followed only by right padding),
and the recorded length is the sequence length minus one for both views. -/
theorem C4_shift_invariant (cfg : BatchingConfig) (tk : TokInfo)
    (raw : List LangPairSample) (b : MultimodalSeqsBatch)
    (sv : List LangPairSample) (i : ℕ)
    (P T : List (List ℤ)) (L : List ℕ)
    (h : prepare_batch cfg tk raw = some b)
    (hsv : both_filter_survivors cfg raw = some sv)
    (hi : i < sv.length)
    (hP : b.speech_to_text.prev_output_tokens = some P)
    (hT : b.speech_to_text.target_tokens = some T)
    (hL : b.speech_to_text.target_lengths = some L)
    (hiP : i < P.length) (hiT : i < T.length) (hiL : i < L.length) :
    (P.get ⟨i, hiP⟩).take
        ((get_tokenized_target_text tk (sv.get ⟨i, hi⟩)).length - 1)
      = (get_tokenized_target_text tk (sv.get ⟨i, hi⟩)).dropLast ∧
    (T.get ⟨i, hiT⟩).take
        ((get_tokenized_target_text tk (sv.get ⟨i, hi⟩)).length - 1)
      = (get_tokenized_target_text tk (sv.get ⟨i, hi⟩)).drop 1 ∧
    L.get ⟨i, hiL⟩ = (get_tokenized_target_text tk (sv.get ⟨i, hi⟩)).length - 1 ∧
    (∀ (PU TU : List (List ℤ)) (LU : List ℕ),
      b.text_to_units.prev_output_tokens = some PU →
      b.text_to_units.target_tokens = some TU →
      b.text_to_units.target_lengths = some LU →
      ∀ (hiPU : i < PU.length) (hiTU : i < TU.length) (hiLU : i < LU.length)
        (u : List ℤ), (sv.get ⟨i, hi⟩).units_encoded = some u →
        (PU.get ⟨i, hiPU⟩).take ((u ++ [tk.unit_eos]).length - 1)
            = (u ++ [tk.unit_eos]).dropLast ∧
        (TU.get ⟨i, hiTU⟩).take ((u ++ [tk.unit_eos]).length - 1)
            = (u ++ [tk.unit_eos]).drop 1 ∧
        LU.get ⟨i, hiLU⟩ = (u ++ [tk.unit_eos]).length - 1) := by
  obtain ⟨kept, hds, -, -, rfl⟩ := (prepare_batch_eq_some_iff cfg tk raw b).mp h
  unfold both_filter_survivors at hsv
  rw [hds] at hsv
  injection hsv with hsv2
  subst hsv2
  rw [assemble_prev_text] at hP
  rw [assemble_target_text] at hT
  rw [assemble_text_lengths] at hL
  injection hP with hP2
  injection hT with hT2
  injection hL with hL2
  subst hP2
  subst hT2
  subst hL2
  have hiT2 : i < ((kept.filter fun s => !fbank_has_nan s.fbank).map
      (get_tokenized_target_text tk)).length := by simpa using hi
  have hg := shifted_views_get
    ((kept.filter fun s => !fbank_has_nan s.fbank).map (get_tokenized_target_text tk))
    tk.text_pad i hiT2 hiP hiT hiL
  have g1 := hg.1
  have g2 := hg.2.1
  have g3 := hg.2.2
  have hgt : ((kept.filter fun s => !fbank_has_nan s.fbank).map
      (get_tokenized_target_text tk)).get ⟨i, hiT2⟩ =
        get_tokenized_target_text tk
          ((kept.filter fun s => !fbank_has_nan s.fbank).get ⟨i, hi⟩) := by
    simp
  rw [hgt] at g1 g2 g3
  refine ⟨g1, g2, g3, ?_⟩
  intro PU TU LU hPU hTU hLU hiPU hiTU hiLU u hu
  cases hcond : ((kept.filter fun s => !fbank_has_nan s.fbank).map
      (get_tokenized_units tk)).any Option.isNone with
  | true =>
    rw [(assemble_units_none cfg tk _ _ hcond).2.1] at hPU
    cases hPU
  | false =>
    rw [(assemble_units_some cfg tk _ _ hcond).2.1] at hPU
    rw [(assemble_units_some cfg tk _ _ hcond).1] at hTU
    rw [(assemble_units_some cfg tk _ _ hcond).2.2] at hLU
    injection hPU with hPU2
    injection hTU with hTU2
    injection hLU with hLU2
    subst hPU2
    subst hTU2
    subst hLU2
    have hfm := filterMap_id_map_getD (get_tokenized_units tk) []
      (kept.filter fun s => !fbank_has_nan s.fbank) (units_all_some tk _ hcond)
    have hiU2 : i < ((kept.filter fun s => !fbank_has_nan s.fbank).map
        fun s => (get_tokenized_units tk s).getD []).length := by simpa using hi
    have hiPU2 : i < (batch_tensors
        (((kept.filter fun s => !fbank_has_nan s.fbank).map
          fun s => (get_tokenized_units tk s).getD []).map List.dropLast)
        tk.unit_pad).length := by
      simpa [batch_tensors_length] using hi
    have hiTU2 : i < (batch_tensors
        (((kept.filter fun s => !fbank_has_nan s.fbank).map
          fun s => (get_tokenized_units tk s).getD []).map (List.drop 1))
        tk.unit_pad).length := by
      simpa [batch_tensors_length] using hi
    have hiLU2 : i < (((kept.filter fun s => !fbank_has_nan s.fbank).map
        fun s => (get_tokenized_units tk s).getD []).map
          fun t => t.length - 1).length := by simpa using hi
    have hgU := shifted_views_get
      ((kept.filter fun s => !fbank_has_nan s.fbank).map
        fun s => (get_tokenized_units tk s).getD [])
      tk.unit_pad i hiU2 hiPU2 hiTU2 hiLU2
    have g4 := hgU.1
    have g5 := hgU.2.1
    have g6 := hgU.2.2
    have hgu : ((kept.filter fun s => !fbank_has_nan s.fbank).map
        fun s => (get_tokenized_units tk s).getD []).get ⟨i, hiU2⟩ =
          u ++ [tk.unit_eos] := by
      rw [List.get_eq_getElem] at hu ⊢
      simp only [List.getElem_map]
      simp [get_tokenized_units, hu]
    rw [hgu] at g4 g5 g6
    have hPUeq : batch_tensors
        ((((kept.filter fun s => !fbank_has_nan s.fbank).map
          (get_tokenized_units tk)).filterMap id).map List.dropLast) tk.unit_pad =
      batch_tensors
        (((kept.filter fun s => !fbank_has_nan s.fbank).map
          fun s => (get_tokenized_units tk s).getD []).map List.dropLast)
        tk.unit_pad := by rw [hfm]
    have hTUeq : batch_tensors
        ((((kept.filter fun s => !fbank_has_nan s.fbank).map
          (get_tokenized_units tk)).filterMap id).map (List.drop 1)) tk.unit_pad =
      batch_tensors
        (((kept.filter fun s => !fbank_has_nan s.fbank).map
          fun s => (get_tokenized_units tk s).getD []).map (List.drop 1))
        tk.unit_pad := by rw [hfm]
    have hLUeq : ((((kept.filter fun s => !fbank_has_nan s.fbank).map
          (get_tokenized_units tk)).filterMap id).map fun tokens => tokens.length - 1) =
      (((kept.filter fun s => !fbank_has_nan s.fbank).map
          fun s => (get_tokenized_units tk s).getD []).map
            fun tokens => tokens.length - 1) := by rw [hfm]
    refine ⟨?_, ?_, ?_⟩
    · rw [List.get_of_eq hPUeq ⟨i, hiPU⟩]
      exact g4
    · rw [List.get_of_eq hTUeq ⟨i, hiTU⟩]
      exact g5
    · rw [List.get_of_eq hLUeq ⟨i, hiLU⟩]
      exact g6

/-- C4 witness: the shift relations evaluated on a concrete one-sample
batch — text sequence [10, 11, 7], unit sequence [20, 21, 8]. -/
theorem C4_witness :
    [(10 : ℤ), 11].take 2 = [10, 11] ∧
    [(11 : ℤ), 7].take 2 = [11, 7] ∧
    (2 : ℕ) = 2 ∧
    ([(20 : ℤ), 21].take 2 = [20, 21] ∧
     [(21 : ℤ), 8].take 2 = [21, 8] ∧
     (2 : ℕ) = 2) := by
  have h := C4_shift_invariant exCfg exTk [exGood] exBatch [exGood] 0
    [[10, 11]] [[11, 7]] [2]
    (by decide) (by decide) (by decide) (by decide) (by decide) (by decide)
    (by decide) (by decide) (by decide)
  refine ⟨h.1, h.2.1, h.2.2.1, ?_⟩
  exact h.2.2.2 [[20, 21]] [[21, 8]] [2]
    (by decide) (by decide) (by decide) (by decide) (by decide) (by decide)
    [20, 21] (by decide)

end M4TFinetune
